import Mathlib

/-!
Shallow embedding of the RelayPoint Elite Workflow Engine
(`backend/app/services/workflow_engine_elite.py`) and proofs about it.

The engine's data model is translated field by field; the step runner and
wave scheduler are translated as explicit state-passing functions.  Python
`datetime` timestamps are modelled as `Nat` instants supplied by the caller;
dynamically typed variable values are modelled by their string form where the
engine only ever uses `str(value)`, and polymorphically otherwise.
-/

set_option maxRecDepth 4000

namespace RelayPoint

/-- Workflow execution status (`WorkflowStatus` enum in the source). -/
inductive WorkflowStatus
  | pending
  | running
  | completed
  | failed
  | cancelled
  | paused
deriving DecidableEq, Repr

/-- Individual step execution status (`StepStatus` enum in the source). -/
inductive StepStatus
  | pending
  | running
  | completed
  | failed
  | skipped
  | retrying
deriving DecidableEq, Repr

/-- A step guard condition: the source stores conditions as dicts and reads
`condition.get("expression", "")`; only the expression field is ever used. -/
structure Condition where
  expression : String
deriving DecidableEq, Repr

/-- Configuration of one workflow step (`StepConfiguration` dataclass).
`max_retries` and `delay_seconds` model `retry_policy.get("max_retries", 0)`
and `retry_policy.get("delay_seconds", 1)`; the handler table is kept
separately (as in the source's `step_handlers` dict), so `step_type` is the
key into it.  `config`, `inputs` and `outputs` are omitted: no claim settled
here depends on the opaque handler configuration or on output binding. -/
structure StepConfiguration where
  step_id : String
  step_type : String
  name : String := ""
  description : String := ""
  conditions : List Condition := []
  max_retries : Nat := 0
  delay_seconds : Nat := 1
  timeout_seconds : Nat := 300
  depends_on : List String := []
  run_on_failure : Bool := false
deriving DecidableEq, Repr

/-- A workflow variable (`WorkflowVariable` dataclass), polymorphic in the
dynamically typed `value`. -/
structure WorkflowVariable (α : Type) where
  name : String
  value : α
  vtype : String := ""
  description : String := ""
  encrypted : Bool := false
deriving DecidableEq, Repr

/-- The per-execution variable store `execution.variables`
(a dict from name to `WorkflowVariable`), with string-typed values. -/
abbrev VarStore := List (String × WorkflowVariable String)

/-- First-match association-list lookup, modelling Python dict indexing
(an updated entry is prepended, so the first hit is the current one). -/
def lookupVar {α : Type} (n : String) : List (String × α) → Option α
  | [] => none
  | kv :: rest => if kv.1 = n then some kv.2 else lookupVar n rest

/-- Model of `EliteWorkflowEngine._evaluate_expression`: the source is a placeholder
that ignores both arguments and returns `True`. -/
def evaluate_expression (e : String) (vars : VarStore) : Bool :=
  true

/-- Model of `EliteWorkflowEngine._evaluate_conditions`: an empty condition list is
vacuously true; otherwise every condition's expression must evaluate true. -/
def evaluate_conditions (conds : List Condition) (vars : VarStore) : Bool :=
  if conds.isEmpty then true
  else conds.all (fun c => evaluate_expression c.expression vars)

/-- Outcome of one handler invocation, as observed by `_execute_step`:
the handler returns normally, raises an exception with message `msg`, or
`asyncio.wait_for` raises `asyncio.TimeoutError`.  The handler's result
payload is not modelled (no settled claim depends on output binding). -/
inductive HandlerOutcome
  | success
  | failure (msg : String)
  | timeout
deriving DecidableEq, Repr

/-- A handler's behaviour for one step: the outcome of its `i`-th invocation.
Handlers perform external I/O, so outcomes may differ between invocations. -/
abbrev HandlerBehavior := Nat → HandlerOutcome

/-- The engine's `step_handlers` dict, keyed by step type. -/
abbrev HandlerTable := String → Option HandlerBehavior

/-- Net effect of `_execute_step` on one step's `StepExecution`:
final status, final `retry_count`, number of passes through the `try` body
(`attempts`, which equals the number of handler invocations whenever a
handler is registered), final `error_message`, and the sequence of backoff
sleeps performed (in seconds, in order). -/
structure StepRun where
  status : StepStatus
  retry_count : Nat
  attempts : Nat
  error_message : Option String
  delays : List Nat
deriving DecidableEq, Repr

/-- Body of `EliteWorkflowEngine._execute_step`, with the recursion made
explicit: `i` is the number of earlier passes (0 on the first call) and `rc`
the current `retry_count`.  Per the source: the guard conditions are checked
first (false conditions mark the step `skipped`); a missing handler raises
`"No handler for step type: ..."`, which — being a plain `Exception` raised
inside the `try` — is caught by the generic `except Exception` retry clause;
`asyncio.TimeoutError` is caught by its own earlier clause, which marks the
step `failed` and re-raises without touching the retry logic; any other
handler exception increments `retry_count` while it is below `max_retries`,
sleeps `delay_seconds * retry_count`, and re-enters the whole body. -/
def executeStepGo (handlers : HandlerTable) (step : StepConfiguration)
    (vars : VarStore) (i rc : Nat) : StepRun :=
  if evaluate_conditions step.conditions vars = false then
    ⟨.skipped, rc, i, none, []⟩
  else
    let outcome : HandlerOutcome :=
      match handlers step.step_type with
      | none => .failure ("No handler for step type: " ++ step.step_type)
      | some beh => beh i
    match outcome with
    | .success => ⟨.completed, rc, i + 1, none, []⟩
    | .timeout =>
        ⟨.failed, rc, i + 1,
          some ("Step timed out after " ++ toString step.timeout_seconds ++ " seconds"), []⟩
    | .failure m =>
        if h : rc < step.max_retries then
          let r := executeStepGo handlers step vars (i + 1) (rc + 1)
          { r with delays := step.delay_seconds * (rc + 1) :: r.delays }
        else ⟨.failed, rc, i + 1, some m, []⟩
termination_by step.max_retries - rc
decreasing_by omega

/-- `EliteWorkflowEngine._execute_step` on a fresh `StepExecution`
(`retry_count` starts at 0). -/
def executeStep (handlers : HandlerTable) (step : StepConfiguration)
    (vars : VarStore) : StepRun :=
  executeStepGo handlers step vars 0 0

/-- A workflow definition (`WorkflowDefinition` dataclass), restricted to the
fields `register_workflow` and the scheduler read: its id and its steps.
Default variables are handled by the standalone `initVariables` below. -/
structure WorkflowDefinition where
  workflow_id : String
  name : String := ""
  steps : List StepConfiguration
deriving DecidableEq, Repr

/-- Scan of `_validate_workflow`'s nested loop: the first `(step_id, dep)`
pair such that `dep` appears in `step.depends_on` but names no step of the
definition, in iteration order. -/
def firstUnknownDep (step_ids : List String) :
    List StepConfiguration → Option (String × String)
  | [] => none
  | s :: rest =>
    match s.depends_on.find? (fun d => !(step_ids.contains d)) with
    | some d => some (s.step_id, d)
    | none => firstUnknownDep step_ids rest

/-- Model of `EliteWorkflowEngine._validate_workflow`.  Despite the source comment
"Check for circular dependencies", the body only rejects dependencies on
non-existent steps (raising `ValueError`); there is no cycle check. -/
def validate_workflow (workflow : WorkflowDefinition) : Except String Unit :=
  match firstUnknownDep (workflow.steps.map (fun s => s.step_id)) workflow.steps with
  | some sd => .error ("Step " ++ sd.1 ++ " depends on non-existent step " ++ sd.2)
  | none => .ok ()

/-- Model of `EliteWorkflowEngine.register_workflow`: validate, then store the
definition under its id (dict assignment replaces any prior entry; with
first-match lookup, prepending models that) and return the workflow id. -/
def register_workflow (workflows : List (String × WorkflowDefinition))
    (workflow : WorkflowDefinition) :
    Except String (List (String × WorkflowDefinition) × String) :=
  match validate_workflow workflow with
  | .error m => .error m
  | .ok _ => .ok ((workflow.workflow_id, workflow) :: workflows, workflow.workflow_id)

/-- One `StepExecution` record (timestamps as `Nat` instants). -/
structure StepExec where
  step_id : String
  execution_id : String
  status : StepStatus
  started_at : Option Nat := none
  completed_at : Option Nat := none
  error_message : Option String := none
  retry_count : Nat := 0
deriving DecidableEq, Repr

/-- One `WorkflowExecution` record, restricted to the fields
`cancel_execution` reads or writes (`progress`, `variables` and `metadata`
are untouched by cancellation and omitted here). -/
structure Execution where
  execution_id : String
  workflow_id : String
  user_id : String
  status : WorkflowStatus
  started_at : Nat := 0
  completed_at : Option Nat := none
  step_executions : List StepExec := []
  error_message : Option String := none
deriving DecidableEq, Repr

/-- The in-memory execution registry `self.executions`, as a map. -/
abbrev ExecStore := String → Option Execution

/-- Per-step update performed by `cancel_execution`'s loop over
`execution.step_executions`: a currently running step is marked failed with
the cancellation message and a completion timestamp; all others are left
untouched. -/
def cancelStepUpdate (now : Nat) (s : StepExec) : StepExec :=
  if s.status = .running then
    { s with status := .failed,
             error_message := some "Execution cancelled by user",
             completed_at := some now }
  else s

/-- Model of `EliteWorkflowEngine.cancel_execution`.  Three facts from the source:
an unknown execution id returns `False`; the ownership comparison
`if execution.user_id != user_id:` has a `pass` body, so it never rejects
anything; only a `RUNNING` execution is mutated (status `CANCELLED`,
`completed_at` set, running steps failed), everything else is a `False`
no-op.  `datetime.utcnow()` is passed in as `now`. -/
def cancel_execution (executions : ExecStore) (execution_id user_id : String)
    (now : Nat) : Bool × ExecStore :=
  match executions execution_id with
  | none => (false, executions)
  | some execution =>
    -- source: `if execution.user_id != user_id: pass` — intentionally kept
    -- with no effect, mirroring the unimplemented permission check
    if execution.status = .running then
      let cancelled : Execution :=
        { execution with
            status := .cancelled,
            completed_at := some now,
            step_executions := execution.step_executions.map (cancelStepUpdate now) }
      (true, fun k => if k = execution_id then some cancelled else executions k)
    else (false, executions)

/-- Set insertion for the scheduler's `completed_steps` set of step ids. -/
def insertId (sid : String) (l : List String) : List String :=
  if sid ∈ l then l else l ++ [sid]

/-- The per-wave result loop of `_execute_steps` (`for step_id, task in
tasks:`): tasks whose `_execute_step` returned normally (status completed or
skipped) are added to `completed_steps`; a task that raised (status failed)
has its step already marked failed, and either aborts the whole execution
with `"Step <id> failed: ..."` when `run_on_failure` is false, or is added
to `completed_steps` and tolerated when it is true. -/
def processWave :
    List (StepConfiguration × StepRun) → List String → Except String (List String)
  | [], completed => .ok completed
  | sr :: rest, completed =>
    if sr.2.status = .failed then
      if sr.1.run_on_failure then
        processWave rest (insertId sr.1.step_id completed)
      else
        .error ("Step " ++ sr.1.step_id ++ " failed: " ++ (sr.2.error_message.getD ""))
    else processWave rest (insertId sr.1.step_id completed)

/-- The `while len(completed_steps) < len(workflow.steps)` loop of
`_execute_steps`, with the dependency graph inlined (`_build_dependency_graph`
maps each step id to a copy of its `depends_on`; readiness is computed over
that graph in step order).  Each productive wave adds at least one step to
`completed_steps`, so `fuel = steps.length + 1` iterations always suffice and
the fuel-exhausted branch is unreachable from `execute_steps`.  Returns the
accumulated `(step_id, StepRun)` results and the error message of the raised
exception, if any (`none` = the loop finished and the caller marks the
execution completed). -/
def executeStepsLoop (handlers : HandlerTable) (steps : List StepConfiguration)
    (vars : VarStore) :
    Nat → List String → List (String × StepRun) → List (String × StepRun) × Option String
  | 0, _, runs => (runs, some "loop fuel exhausted")
  | fuel + 1, completed, runs =>
    if completed.length < steps.length then
      let ready := steps.filter
        (fun s => !(completed.contains s.step_id) &&
                  s.depends_on.all (fun d => completed.contains d))
      if ready.isEmpty then
        -- source: remaining = graph keys minus completed; raise if non-empty
        let remaining := steps.filter (fun s => !(completed.contains s.step_id))
        if remaining.isEmpty then (runs, none)
        else (runs, some ("Circular dependency detected in steps: " ++
              String.intercalate ", " (remaining.map (fun s => s.step_id))))
      else
        let wave := ready.map (fun s => (s, executeStep handlers s vars))
        let runs2 := runs ++ wave.map (fun sr => (sr.1.step_id, sr.2))
        match processWave wave completed with
        | .error m => (runs2, some m)
        | .ok completed2 => executeStepsLoop handlers steps vars fuel completed2 runs2
    else (runs, none)

/-- Model of `EliteWorkflowEngine._execute_steps` from an empty completed set. -/
def execute_steps (handlers : HandlerTable) (steps : List StepConfiguration)
    (vars : VarStore) : List (String × StepRun) × Option String :=
  executeStepsLoop handlers steps vars (steps.length + 1) [] []

/-- Model of `EliteWorkflowEngine._execute_workflow`: runs the steps; if
`_execute_steps` returned normally the execution is marked `COMPLETED`,
and if it raised the execution is marked `FAILED` with the exception's
message as `error_message`. -/
def execute_workflow (handlers : HandlerTable) (steps : List StepConfiguration)
    (vars : VarStore) : WorkflowStatus × List (String × StepRun) × Option String :=
  match execute_steps handlers steps vars with
  | (runs, none) => (.completed, runs, none)
  | (runs, some m) => (.failed, runs, some m)

/-- The variable-seeding loop of `EliteWorkflowEngine.start_execution`:
iterates over the definition's declared default variables; each seeded
variable keeps the declared name and metadata, and its value is
`initial_variables.get(name, var_def.value) if initial_variables else
var_def.value` (Python's falsy `None` is `none`; a falsy empty dict behaves
identically to `none` since `get` then always returns the default).
Caller-supplied names outside the declared map are never consulted. -/
def seedVar {α : Type} (initial_variables : Option (List (String × α)))
    (nm : String) (dv : WorkflowVariable α) : WorkflowVariable α :=
  { name := nm,
    value := match initial_variables with
             | some iv => (lookupVar nm iv).getD dv.value
             | none => dv.value,
    vtype := dv.vtype,
    description := dv.description,
    encrypted := dv.encrypted }

def initVariables {α : Type} (declared : List (String × WorkflowVariable α))
    (initial_variables : Option (List (String × α))) :
    List (String × WorkflowVariable α) :=
  declared.map (fun nv => (nv.1, seedVar initial_variables nv.1 nv.2))

/-!
Concrete instances used by individual counterexamples and witnesses below.
-/

/-- A two-step definition whose dependency relation is the cycle
A -> B -> A (every referenced id exists). -/
def cyclicDefn : WorkflowDefinition :=
  { workflow_id := "wf-cyclic",
    steps := [ { step_id := "A", step_type := "t", depends_on := ["B"] },
               { step_id := "B", step_type := "t", depends_on := ["A"] } ] }

/-- A definition with a `depends_on` entry naming an absent step id. -/
def unknownDepDefn : WorkflowDefinition :=
  { workflow_id := "wf-unknown",
    steps := [ { step_id := "A", step_type := "t", depends_on := ["Z"] } ] }

/-- The concrete running execution used for the C4 counterexample: owned by
"alice", with one running step. -/
def c4Exec : Execution :=
  { execution_id := "e1", workflow_id := "w1", user_id := "alice",
    status := .running,
    step_executions := [ { step_id := "A", execution_id := "e1",
                           status := .running } ] }

/-- The registry holding only `c4Exec`. -/
def c4Store : ExecStore := fun k => if k = "e1" then some c4Exec else none

/-- The concrete running execution used for the C7 witness. -/
def c7Exec : Execution :=
  { execution_id := "e7", workflow_id := "w7", user_id := "alice",
    status := .running,
    step_executions := [ { step_id := "A", execution_id := "e7",
                           status := .running },
                         { step_id := "B", execution_id := "e7",
                           status := .completed } ] }

/-- The registry holding only `c7Exec`. -/
def c7Store : ExecStore := fun k => if k = "e7" then some c7Exec else none

/-!
Theorems: the settled claims and their supporting lemmas.
-/

/-- The placeholder expression evaluator makes every condition list true. -/
theorem evaluate_conditions_eq_true (conds : List Condition) (vars : VarStore) :
    evaluate_conditions conds vars = true := by
  simp [evaluate_conditions, evaluate_expression]

/-- ASCII word characters, modelling `\w` in the substitution pattern
`r'\{\{(\w+)\}\}'` of `_resolve_variables` (this embedding restricts the
word class to ASCII letters, digits and underscore). -/
def isWordChar (c : Char) : Bool := c.isAlphanum || c = '_'

/-- Greedy scan of a maximal (possibly empty) run of word characters,
returning the run and the remaining input — the behaviour of `\w+`'s
repetition at a match position. -/
def scanName : List Char → List Char × List Char
  | [] => ([], [])
  | c :: cs =>
    if isWordChar c then
      let p := scanName cs
      (c :: p.1, p.2)
    else ([], c :: cs)

/-- Attempt to match `\w+\}\}` at the head of the input (the part of the
pattern after the opening braces): at least one word character, then two
closing braces; on success returns the captured name and the input after
the match. -/
def scanVar (cs : List Char) : Option (List Char × List Char) :=
  match scanName cs with
  | (name, '}' :: '}' :: r2) => if name.isEmpty then none else some (name, r2)
  | _ => none

/-- Attempt to match the whole pattern `\{\{(\w+)\}\}` at the head of the
input. -/
def tryMatch : List Char → Option (List Char × List Char)
  | '{' :: '{' :: rest => scanVar rest
  | _ => none

/-- The name and the remaining input of a word-character scan partition the
input (justifies termination of the scanner below). -/
theorem scanName_append (cs : List Char) :
    (scanName cs).1 ++ (scanName cs).2 = cs := by
  induction cs with
  | nil => simp [scanName]
  | cons c cs ih =>
    by_cases h : isWordChar c <;> simp [scanName, h, ih]

/-- Length form of `scanName_append`. -/
theorem scanName_length (cs : List Char) :
    (scanName cs).1.length + (scanName cs).2.length = cs.length := by
  have := congrArg List.length (scanName_append cs)
  simpa using this

/-- A successful `scanVar` found a nonempty name followed by two closing
braces. -/
theorem scanVar_eq {cs n r : List Char} (h : scanVar cs = some (n, r)) :
    n = (scanName cs).1 ∧ (scanName cs).2 = '}' :: '}' :: r ∧ n ≠ [] := by
  unfold scanVar at h
  split at h
  · rename_i name r2 heq
    split at h
    · exact absurd h (by simp)
    · rename_i hne
      simp only [Option.some.injEq, Prod.mk.injEq] at h
      obtain ⟨h1, h2⟩ := h
      subst h1; subst h2
      constructor
      · rw [heq]
      · constructor
        · rw [heq]
        · simpa [List.isEmpty_iff] using hne
  · exact absurd h (by simp)

/-- A successful `scanVar` consumes at least the name and the two closing
braces. -/
theorem scanVar_length {cs n r : List Char} (h : scanVar cs = some (n, r)) :
    r.length + 2 ≤ cs.length := by
  obtain ⟨h1, h2, _⟩ := scanVar_eq h
  have hl := scanName_length cs
  rw [h2] at hl
  simp at hl
  omega

/-- A successful `scanVar` splits its input as `name ++ "}}" ++ rest`. -/
theorem scanVar_decomp {cs n r : List Char} (h : scanVar cs = some (n, r)) :
    cs = n ++ '}' :: '}' :: r := by
  obtain ⟨h1, h2, _⟩ := scanVar_eq h
  have ha := scanName_append cs
  rw [h2, ← h1] at ha
  exact ha.symm

/-- A full pattern match consumes at least four characters. -/
theorem tryMatch_length {cs n r : List Char} (h : tryMatch cs = some (n, r)) :
    r.length + 4 ≤ cs.length := by
  unfold tryMatch at h
  split at h
  · have := scanVar_length h
    simp
    omega
  · exact absurd h (by simp)

/-- A full pattern match splits its input as `"{{" ++ name ++ "}}" ++ rest`. -/
theorem tryMatch_decomp {cs n r : List Char} (h : tryMatch cs = some (n, r)) :
    cs = '{' :: '{' :: (n ++ '}' :: '}' :: r) := by
  unfold tryMatch at h
  split at h
  · have := scanVar_decomp h
    rw [this]
  · exact absurd h (by simp)

/-- The replacement function `replace_var` of `_resolve_variables`:
a name bound in the store is replaced by the string form of its value
(the environment `env` maps a name to `str(variables[name].value)` when
bound); an unbound name leaves the whole match `{{name}}` verbatim. -/
def replace_var (env : List Char → Option (List Char)) (name : List Char) :
    List Char :=
  match env name with
  | some v => v
  | none => '{' :: '{' :: (name ++ '}' :: '}' :: [])

/-- The `re.sub` scanning as performed by `_resolve_variables`: leftmost
non-overlapping matches of `\{\{(\w+)\}\}` are replaced via `replace_var`
and scanning continues after each match; at a non-match position the
character is copied and scanning advances by one. -/
def resolveList (env : List Char → Option (List Char)) : List Char → List Char
  | [] => []
  | c :: rest =>
    match h : tryMatch (c :: rest) with
    | some nr => replace_var env nr.1 ++ resolveList env nr.2
    | none => c :: resolveList env rest
termination_by cs => cs.length
decreasing_by
  · have := tryMatch_length h
    simp at this ⊢
    omega
  · simp

/-- Model of `EliteWorkflowEngine._resolve_variables` on Lean strings. -/
def resolve_variables (text : String) (env : List Char → Option (List Char)) :
    String :=
  ⟨resolveList env text.data⟩

/-- A template decomposed into the pieces the regex scan finds: literal
characters outside any match, and the names of `{{name}}` occurrences. -/
inductive TItem
  | lit (c : Char)
  | var (name : List Char)

/-- Decomposition of a template by the same leftmost scan `re.sub` uses:
each `{{name}}` occurrence becomes `TItem.var name`, every other character
becomes a literal. -/
def parseT : List Char → List TItem
  | [] => []
  | c :: rest =>
    match h : tryMatch (c :: rest) with
    | some nr => .var nr.1 :: parseT nr.2
    | none => .lit c :: parseT rest
termination_by cs => cs.length
decreasing_by
  · have := tryMatch_length h
    simp at this ⊢
    omega
  · simp

/-- Rendering of a decomposed template under a variable store, following
the specification's words: bound occurrences are replaced by the string
form of the bound value, unbound occurrences are left verbatim, literal
text is unchanged. -/
def renderT (env : List Char → Option (List Char)) : List TItem → List Char
  | [] => []
  | .lit c :: ts => c :: renderT env ts
  | .var n :: ts => replace_var env n ++ renderT env ts

end RelayPoint

namespace RelayPoint

theorem resolveList_eq_renderT (env : List Char → Option (List Char)) (cs : List Char) :
    resolveList env cs = renderT env (parseT cs) := by
  induction cs using parseT.induct with
  | case1 => simp [resolveList, parseT, renderT]
  | case2 c rest nr h ih =>
    rw [resolveList, parseT, h]
    simp [renderT, ih]
  | case3 c rest h ih =>
    rw [resolveList, parseT, h]
    simp [renderT, ih]

theorem renderT_none_parseT (cs : List Char) :
    renderT (fun _ => none) (parseT cs) = cs := by
  induction cs using parseT.induct with
  | case1 => simp [parseT, renderT]
  | case2 c rest nr h ih =>
    rw [parseT, h]
    have hd := tryMatch_decomp h
    simp only [renderT, replace_var, ih]
    rw [hd]
    simp
  | case3 c rest h ih =>
    rw [parseT, h]
    simp [renderT, ih]

theorem executeStepGo_not_skipped (handlers : HandlerTable)
    (step : StepConfiguration) (vars : VarStore) :
    ∀ k i rc, step.max_retries - rc ≤ k →
      (executeStepGo handlers step vars i rc).status ≠ .skipped := by
  intro k
  induction k with
  | zero =>
    intro i rc hk
    have hnr : ¬ (rc < step.max_retries) := by omega
    rw [executeStepGo, if_neg (by simp [evaluate_conditions_eq_true])]
    cases hb : handlers step.step_type with
    | none => simp [hb, hnr]
    | some beh =>
      cases ho : beh i with
      | success => simp [hb, ho]
      | timeout => simp [hb, ho]
      | failure m => simp [hb, ho, hnr]
  | succ k ih =>
    intro i rc hk
    rw [executeStepGo, if_neg (by simp [evaluate_conditions_eq_true])]
    by_cases hrc : rc < step.max_retries
    · cases hb : handlers step.step_type with
      | none =>
        have := ih (i + 1) (rc + 1) (by omega)
        simp [hb, hrc, this]
      | some beh =>
        cases ho : beh i with
        | success => simp [hb, ho]
        | timeout => simp [hb, ho]
        | failure m =>
          have := ih (i + 1) (rc + 1) (by omega)
          simp [hb, ho, hrc, this]
    · cases hb : handlers step.step_type with
      | none => simp [hb, hrc]
      | some beh =>
        cases ho : beh i with
        | success => simp [hb, ho]
        | timeout => simp [hb, ho]
        | failure m => simp [hb, ho, hrc]

/-- C9: the built-in condition expression evaluator returns true for every
expression and every variable store (it is a placeholder), the conjunction
over any step's conditions list therefore always evaluates true, and no run
of `_execute_step` under the default engine ever ends `Skipped`. -/
theorem placeholder_conditions_make_skipped_unreachable :
    (∀ (e : String) (vars : VarStore), evaluate_expression e vars = true) ∧
    (∀ (conds : List Condition) (vars : VarStore),
        evaluate_conditions conds vars = true) ∧
    (∀ (handlers : HandlerTable) (step : StepConfiguration) (vars : VarStore),
        (executeStep handlers step vars).status ≠ .skipped) := by
  refine ⟨fun e vars => rfl, evaluate_conditions_eq_true, ?_⟩
  intro handlers step vars
  exact executeStepGo_not_skipped handlers step vars step.max_retries 0 0 (by omega)

/-- C8: `_resolve_variables` equals, occurrence by occurrence, the
specification's rendering: every `{{name}}` occurrence found by the regex
scan whose name is bound in the store is replaced by the string form of the
bound value, every unbound occurrence is left verbatim, and all text outside
occurrences is unchanged (the second conjunct: rendering with no bindings
reproduces the template exactly); the function is total, so no input raises. -/
theorem resolve_variables_substitutes_bound_occurrences
    (text : String) (env : List Char → Option (List Char)) :
    resolve_variables text env = ⟨renderT env (parseT text.data)⟩ ∧
    resolve_variables text (fun _ => none) = text := by
  constructor
  · show String.mk (resolveList env text.data) = _
    rw [resolveList_eq_renderT]
  · show String.mk (resolveList (fun _ => none) text.data) = text
    rw [resolveList_eq_renderT, renderT_none_parseT]

/-- C5: a step whose handler signals failure on every invocation, under a
retry policy of `max_retries = 2`, ends `Failed` with `retry_count = 2`,
having invoked its handler exactly 3 times, the `k`-th retry preceded by a
backoff sleep of `delay_seconds * k`. -/
theorem always_failing_step_exhausts_retries
    (handlers : HandlerTable) (step : StepConfiguration) (vars : VarStore)
    (beh : HandlerBehavior)
    (hh : handlers step.step_type = some beh)
    (hmr : step.max_retries = 2)
    (hf : ∀ i, ∃ m, beh i = .failure m) :
    (executeStep handlers step vars).status = .failed ∧
    (executeStep handlers step vars).retry_count = 2 ∧
    (executeStep handlers step vars).attempts = 3 ∧
    (executeStep handlers step vars).delays =
      [step.delay_seconds * 1, step.delay_seconds * 2] := by
  obtain ⟨m0, hm0⟩ := hf 0
  obtain ⟨m1, hm1⟩ := hf 1
  obtain ⟨m2, hm2⟩ := hf 2
  simp [executeStep, executeStepGo, hh, hmr, hm0, hm1, hm2, evaluate_conditions_eq_true]

/-- C5 witness: a concrete always-failing handler with `max_retries = 2`
and `delay_seconds = 5`. -/
theorem always_failing_step_exhausts_retries_witness :
    (executeStep (fun t => if t = "w5" then some (fun _ => .failure "boom") else none)
        { step_id := "s5", step_type := "w5", max_retries := 2, delay_seconds := 5 }
        []).status = .failed ∧
    (executeStep (fun t => if t = "w5" then some (fun _ => .failure "boom") else none)
        { step_id := "s5", step_type := "w5", max_retries := 2, delay_seconds := 5 }
        []).retry_count = 2 ∧
    (executeStep (fun t => if t = "w5" then some (fun _ => .failure "boom") else none)
        { step_id := "s5", step_type := "w5", max_retries := 2, delay_seconds := 5 }
        []).attempts = 3 ∧
    (executeStep (fun t => if t = "w5" then some (fun _ => .failure "boom") else none)
        { step_id := "s5", step_type := "w5", max_retries := 2, delay_seconds := 5 }
        []).delays = [5 * 1, 5 * 2] :=
  always_failing_step_exhausts_retries _ _ _ _ (by simp) rfl (fun i => ⟨"boom", rfl⟩)

/-- A missing handler behaves exactly like a handler that fails every
invocation with the "No handler" message: the error is raised inside the
`try` and caught by the generic retry clause, so the loop burns through the
whole retry budget.  Stated for every loop state `(i, rc)`. -/
theorem executeStepGo_no_handler (handlers : HandlerTable)
    (step : StepConfiguration) (vars : VarStore)
    (hh : handlers step.step_type = none) :
    ∀ k i rc, step.max_retries - rc = k →
      (executeStepGo handlers step vars i rc).status = .failed ∧
      (executeStepGo handlers step vars i rc).retry_count = max rc step.max_retries ∧
      (executeStepGo handlers step vars i rc).attempts =
        i + (step.max_retries - rc) + 1 ∧
      (executeStepGo handlers step vars i rc).error_message =
        some ("No handler for step type: " ++ step.step_type) := by
  intro k
  induction k with
  | zero =>
    intro i rc hk
    have hnr : ¬ (rc < step.max_retries) := by omega
    have hmax : max rc step.max_retries = rc := by omega
    rw [executeStepGo, if_neg (by simp [evaluate_conditions_eq_true])]
    simp [hh, hnr, hmax, hk]
  | succ k ih =>
    intro i rc hk
    have hlt : rc < step.max_retries := by omega
    have hmax : max rc step.max_retries = step.max_retries := by omega
    have hmax2 : max (rc + 1) step.max_retries = step.max_retries := by omega
    obtain ⟨h1, h2, h3, h4⟩ := ih (i + 1) (rc + 1) (by omega)
    rw [executeStepGo, if_neg (by simp [evaluate_conditions_eq_true])]
    simp [hh, hlt, h1, h2, h3, h4, hmax, hmax2]
    omega

/-- C3 (amended): a step whose kind has no registered handler raises a
"No handler for step type" error that follows the ordinary retry path:
it is retried like any handler-thrown error, so the step only fails
immediately when `max_retries = 0`; in general the body runs
`max_retries + 1` times and the step ends `Failed` with
`retry_count = max_retries`. -/
theorem missing_handler_error_follows_retry_path
    (handlers : HandlerTable) (step : StepConfiguration) (vars : VarStore)
    (hh : handlers step.step_type = none) :
    (executeStep handlers step vars).status = .failed ∧
    (executeStep handlers step vars).retry_count = step.max_retries ∧
    (executeStep handlers step vars).attempts = step.max_retries + 1 ∧
    (executeStep handlers step vars).error_message =
      some ("No handler for step type: " ++ step.step_type) := by
  obtain ⟨h1, h2, h3, h4⟩ :=
    executeStepGo_no_handler handlers step vars hh step.max_retries 0 0 rfl
  exact ⟨h1, by simpa using h2, by simpa using h3, h4⟩

/-- C3 witness: with no handler registered for type "w3" and
`max_retries = 2`, the body runs three times and the step ends failed. -/
theorem missing_handler_error_follows_retry_path_witness :
    (executeStep (fun _ => none)
        { step_id := "s3", step_type := "w3", max_retries := 2 } []).status = .failed ∧
    (executeStep (fun _ => none)
        { step_id := "s3", step_type := "w3", max_retries := 2 } []).retry_count = 2 ∧
    (executeStep (fun _ => none)
        { step_id := "s3", step_type := "w3", max_retries := 2 } []).attempts = 2 + 1 ∧
    (executeStep (fun _ => none)
        { step_id := "s3", step_type := "w3", max_retries := 2 } []).error_message =
      some ("No handler for step type: " ++ "w3") :=
  missing_handler_error_follows_retry_path (fun _ => none)
    { step_id := "s3", step_type := "w3", max_retries := 2 } [] rfl

/-- C3 counterexample: with `max_retries = 1` and no handler for the step's
type, the step IS retried — `retry_count` ends at 1 after two passes — so
the missing-handler error is not fatal-without-retry as claimed. -/
theorem missing_handler_retried_counterexample :
    (executeStep (fun _ => none)
        { step_id := "s3c", step_type := "zz", max_retries := 1 } []).retry_count = 1 ∧
    (executeStep (fun _ => none)
        { step_id := "s3c", step_type := "zz", max_retries := 1 } []).attempts = 2 := by
  constructor <;>
    simp [executeStep, executeStepGo, evaluate_conditions_eq_true]

/-- C2 (amended): a timeout is NOT handled like a handler-signalled failure:
`asyncio.TimeoutError` is caught by its own clause, which marks the step
`Failed` with the timeout message and re-raises without consulting the retry
policy, leaving `retry_count` at its current value; only handler-signalled
errors enter the retry path. -/
theorem timeout_failure_not_retried
    (handlers : HandlerTable) (step : StepConfiguration) (vars : VarStore)
    (beh : HandlerBehavior)
    (hh : handlers step.step_type = some beh) :
    ∀ i rc, beh i = .timeout →
      executeStepGo handlers step vars i rc =
        ⟨.failed, rc, i + 1,
         some ("Step timed out after " ++ toString step.timeout_seconds ++ " seconds"),
         []⟩ := by
  intro i rc ht
  rw [executeStepGo, if_neg (by simp [evaluate_conditions_eq_true])]
  simp [hh, ht]

/-- C2 witness: a handler that times out on its first invocation under
`max_retries = 2` fails at once with `retry_count = 0`. -/
theorem timeout_failure_not_retried_witness :
    executeStepGo (fun t => if t = "w2w" then some (fun _ => .timeout) else none)
        { step_id := "s2w", step_type := "w2w", max_retries := 2,
          timeout_seconds := 30 } [] 0 0 =
      ⟨.failed, 0, 0 + 1,
       some ("Step timed out after " ++ toString 30 ++ " seconds"), []⟩ :=
  timeout_failure_not_retried _ _ _ (fun _ => HandlerOutcome.timeout) (by simp) 0 0 rfl

/-- C2 counterexample: under the same retry policy (`max_retries = 2`), an
always-timing-out handler leaves `retry_count = 0` after a single invocation,
while an always-failing handler reaches `retry_count = 2` — timeouts are not
treated identically to handler errors for retry purposes. -/
theorem timeout_vs_error_retry_counterexample :
    (executeStep (fun t => if t = "w2" then some (fun _ => .timeout) else none)
        { step_id := "s2", step_type := "w2", max_retries := 2 } []).retry_count = 0 ∧
    (executeStep (fun t => if t = "w2" then some (fun _ => .timeout) else none)
        { step_id := "s2", step_type := "w2", max_retries := 2 } []).attempts = 1 ∧
    (executeStep (fun t => if t = "w2" then some (fun _ => .timeout) else none)
        { step_id := "s2", step_type := "w2", max_retries := 2 } []).status = .failed ∧
    (executeStep (fun t => if t = "w2e" then some (fun _ => .failure "err") else none)
        { step_id := "s2e", step_type := "w2e", max_retries := 2 } []).retry_count = 2 := by
  refine ⟨?_, ?_, ?_, ?_⟩ <;>
    simp [executeStep, executeStepGo, evaluate_conditions_eq_true]

/-- C1: registration validation accepts and stores the cyclic definition —
no cycle check exists despite the source comment — and the cycle only
surfaces once an execution runs, as an execution-level failure; the
unknown-dependency half of the claim does hold (such definitions are
rejected by `ValueError` before being stored). -/
theorem registration_accepts_cycle_rejects_unknown_dep :
    validate_workflow cyclicDefn = .ok () ∧
    register_workflow [] cyclicDefn = .ok ([("wf-cyclic", cyclicDefn)], "wf-cyclic") ∧
    (execute_workflow (fun _ => none) cyclicDefn.steps []).1 = .failed ∧
    (execute_workflow (fun _ => none) cyclicDefn.steps []).2.2 =
      some "Circular dependency detected in steps: A, B" ∧
    validate_workflow unknownDepDefn =
      .error "Step A depends on non-existent step Z" ∧
    register_workflow [] unknownDepDefn =
      .error "Step A depends on non-existent step Z" := by
  refine ⟨rfl, rfl, ?_, ?_, rfl, rfl⟩ <;> rfl

/-- C4: `cancel_execution` never rejects a caller: the ownership comparison
has an empty body, so a caller different from the invoker ("mallory" vs
owner "alice") cancels a running execution all the same — the call returns
true, the execution becomes `Cancelled`, and its running step is failed. -/
theorem cancel_ignores_caller_identity :
    "mallory" ≠ c4Exec.user_id ∧
    (cancel_execution c4Store "e1" "mallory" 7).1 = true ∧
    ((cancel_execution c4Store "e1" "mallory" 7).2 "e1").map
        (fun e => e.status) = some .cancelled ∧
    ((cancel_execution c4Store "e1" "mallory" 7).2 "e1").map
        (fun e => e.step_executions.map (fun s => s.status)) =
      some [.failed] := by
  refine ⟨by decide, rfl, rfl, rfl⟩

/-- C7: cancelling a non-running execution (pending, completed, failed,
cancelled or paused) returns false and leaves the registry untouched;
cancelling a running one returns true, marks it cancelled with the
completion instant, rewrites exactly the running steps to failed with the
cancellation message and the completion instant (all other steps are kept
as they are), and leaves every other registry entry unchanged. -/
theorem cancel_execution_running_only
    (executions : ExecStore) (execution_id user_id : String) (now : Nat)
    (e : Execution) (hlook : executions execution_id = some e) :
    (e.status ≠ .running →
        cancel_execution executions execution_id user_id now =
          (false, executions)) ∧
    (e.status = .running →
        (cancel_execution executions execution_id user_id now).1 = true ∧
        (cancel_execution executions execution_id user_id now).2 execution_id =
          some { e with
                 status := .cancelled,
                 completed_at := some now,
                 step_executions :=
                   e.step_executions.map (cancelStepUpdate now) } ∧
        (∀ k, k ≠ execution_id →
            (cancel_execution executions execution_id user_id now).2 k =
              executions k)) ∧
    (∀ s : StepExec,
        (s.status = .running →
            cancelStepUpdate now s =
              { s with
                status := .failed,
                error_message := some "Execution cancelled by user",
                completed_at := some now }) ∧
        (s.status ≠ .running → cancelStepUpdate now s = s)) := by
  refine ⟨?_, ?_, ?_⟩
  · intro hne
    simp [cancel_execution, hlook, hne]
  · intro hr
    refine ⟨?_, ?_, ?_⟩
    · simp [cancel_execution, hlook, hr]
    · simp [cancel_execution, hlook, hr]
    · intro k hk
      simp [cancel_execution, hlook, hr, hk]
  · intro s
    constructor
    · intro hs
      simp [cancelStepUpdate, hs]
    · intro hs
      simp [cancelStepUpdate, hs]

/-- C7 witness: cancelling the concrete running execution `c7Exec`. -/
theorem cancel_execution_running_only_witness :
    (cancel_execution c7Store "e7" "alice" 3).1 = true ∧
    (cancel_execution c7Store "e7" "alice" 3).2 "e7" =
      some { c7Exec with
             status := .cancelled,
             completed_at := some 3,
             step_executions :=
               c7Exec.step_executions.map (cancelStepUpdate 3) } :=
  ⟨((cancel_execution_running_only c7Store "e7" "alice" 3 c7Exec rfl).2.1 rfl).1,
   ((cancel_execution_running_only c7Store "e7" "alice" 3 c7Exec rfl).2.1 rfl).2.1⟩

/-- Looking a key up after a key-preserving value map applies the value
function pointwise. -/
theorem lookupVar_map_keyed {α β : Type} (f : String → α → β)
    (l : List (String × α)) (n : String) :
    lookupVar n (l.map (fun p => (p.1, f p.1 p.2))) =
      (lookupVar n l).map (f n) := by
  induction l with
  | nil => simp [lookupVar]
  | cons kv rest ih =>
    by_cases h : kv.1 = n
    · subst h
      simp [lookupVar, ih]
    · simp [lookupVar, h, ih]

/-- With distinct keys, first-match lookup finds any member's value. -/
theorem lookupVar_of_nodup_mem {α : Type} {l : List (String × α)}
    {n : String} {v : α}
    (hnd : (l.map Prod.fst).Nodup) (hm : (n, v) ∈ l) :
    lookupVar n l = some v := by
  induction l with
  | nil => cases hm
  | cons kv rest ih =>
    simp only [List.map_cons, List.nodup_cons] at hnd
    rcases List.mem_cons.mp hm with h | h
    · subst h
      simp [lookupVar]
    · have hk : kv.1 ≠ n := by
        intro he
        exact hnd.1 (he ▸ (List.mem_map.mpr ⟨(n, v), h, rfl⟩))
      simp [lookupVar, hk, ih hnd.2 h]

/-- A key absent from the key list is not found. -/
theorem lookupVar_eq_none_of_not_mem {α : Type} {l : List (String × α)}
    {n : String} (h : n ∉ l.map Prod.fst) :
    lookupVar n l = none := by
  induction l with
  | nil => simp [lookupVar]
  | cons kv rest ih =>
    simp only [List.map_cons, List.mem_cons] at h
    push_neg at h
    have hk : ¬ kv.1 = n := fun he => h.1 he.symm
    simp [lookupVar, hk, ih h.2]

/-- C10: the seeded store of a new execution contains exactly the declared
default-variable names; each declared name is seeded with the caller's
initial value when supplied and the declared default otherwise; any
caller-supplied name outside the declared map never appears. -/
theorem start_execution_seeds_declared_variables {α : Type}
    (declared : List (String × WorkflowVariable α))
    (initial_variables : Option (List (String × α)))
    (hnd : (declared.map Prod.fst).Nodup) :
    ((initVariables declared initial_variables).map Prod.fst =
        declared.map Prod.fst) ∧
    (∀ n dv, (n, dv) ∈ declared →
        (lookupVar n (initVariables declared initial_variables)).map
            (fun v => v.value) =
          some (match initial_variables with
                | some iv => (lookupVar n iv).getD dv.value
                | none => dv.value)) ∧
    (∀ n, n ∉ declared.map Prod.fst →
        lookupVar n (initVariables declared initial_variables) = none) := by
  refine ⟨?_, ?_, ?_⟩
  · simp [initVariables]
  · intro n dv hm
    have hkey : lookupVar n (initVariables declared initial_variables) =
        (lookupVar n declared).map (seedVar initial_variables n) :=
      lookupVar_map_keyed (seedVar initial_variables) declared n
    rw [hkey, lookupVar_of_nodup_mem hnd hm]
    simp [seedVar]
  · intro n hn
    have hkey : lookupVar n (initVariables declared initial_variables) =
        (lookupVar n declared).map (seedVar initial_variables n) :=
      lookupVar_map_keyed (seedVar initial_variables) declared n
    rw [hkey, lookupVar_eq_none_of_not_mem hn]
    rfl

/-- C10 witness: two declared defaults, a caller override for "b" and a
stray caller name "c" that is silently discarded. -/
theorem start_execution_seeds_declared_variables_witness :
    (lookupVar "b" (initVariables
        [("a", { name := "a", value := "1" }), ("b", { name := "b", value := "2" })]
        (some [("b", "9"), ("c", "7")]))).map (fun v => v.value) = some "9" ∧
    lookupVar "c" (initVariables
        [("a", { name := "a", value := "1" }), ("b", { name := "b", value := "2" })]
        (some [("b", "9"), ("c", "7")])) = none := by
  have h := start_execution_seeds_declared_variables
    [("a", { name := "a", value := "1" }), ("b", { name := "b", value := "2" })]
    (some [("b", "9"), ("c", "7")]) (by decide)
  refine ⟨?_, ?_⟩
  · have hb := h.2.1 "b" { name := "b", value := "2" } (by simp)
    simpa [lookupVar] using hb
  · exact h.2.2 "c" (by simp)

/-- C6: in a two-step wave where D always fails, has no retries and
`run_on_failure = true`, while its sibling E (no dependency between them)
succeeds, the wave's failure is tolerated: D ends `Failed`, E ends
`Completed`, and the execution ends `Completed`. -/
theorem tolerated_wave_failure_execution_completes
    (handlers : HandlerTable) (vars : VarStore)
    (dStep eStep : StepConfiguration) (dBeh eBeh : HandlerBehavior)
    (hne : dStep.step_id ≠ eStep.step_id)
    (hdro : dStep.run_on_failure = true)
    (hdmr : dStep.max_retries = 0)
    (hddeps : dStep.depends_on = [])
    (hedeps : eStep.depends_on = [])
    (hd : handlers dStep.step_type = some dBeh)
    (he : handlers eStep.step_type = some eBeh)
    (hdf : ∀ i, ∃ m, dBeh i = .failure m)
    (hes : ∀ i, eBeh i = .success) :
    (execute_workflow handlers [dStep, eStep] vars).1 = .completed ∧
    (lookupVar dStep.step_id
        (execute_workflow handlers [dStep, eStep] vars).2.1).map
      (fun r => r.status) = some .failed ∧
    (lookupVar eStep.step_id
        (execute_workflow handlers [dStep, eStep] vars).2.1).map
      (fun r => r.status) = some .completed := by
  obtain ⟨m0, hm0⟩ := hdf 0
  have hrd : executeStep handlers dStep vars = ⟨.failed, 0, 1, some m0, []⟩ := by
    rw [executeStep, executeStepGo, if_neg (by simp [evaluate_conditions_eq_true])]
    simp [hd, hm0, hdmr]
  have hre : executeStep handlers eStep vars = ⟨.completed, 0, 1, none, []⟩ := by
    rw [executeStep, executeStepGo, if_neg (by simp [evaluate_conditions_eq_true])]
    simp [he, hes 0]
  simp only [execute_workflow, execute_steps]
  simp [executeStepsLoop, hddeps, hedeps, hrd, hre, processWave, insertId,
        hdro, hne, Ne.symm hne, lookupVar]

/-- C6 witness: concrete steps D (always fails, tolerated) and E (succeeds)
dispatched in the same wave. -/
theorem tolerated_wave_failure_execution_completes_witness :
    (execute_workflow
        (fun t => if t = "td" then some (fun _ => HandlerOutcome.failure "boom")
                  else if t = "te" then some (fun _ => HandlerOutcome.success)
                  else none)
        [{ step_id := "D", step_type := "td", run_on_failure := true },
         { step_id := "E", step_type := "te" }] []).1 = .completed ∧
    (lookupVar "D"
        (execute_workflow
          (fun t => if t = "td" then some (fun _ => HandlerOutcome.failure "boom")
                    else if t = "te" then some (fun _ => HandlerOutcome.success)
                    else none)
          [{ step_id := "D", step_type := "td", run_on_failure := true },
           { step_id := "E", step_type := "te" }] []).2.1).map
      (fun r => r.status) = some .failed ∧
    (lookupVar "E"
        (execute_workflow
          (fun t => if t = "td" then some (fun _ => HandlerOutcome.failure "boom")
                    else if t = "te" then some (fun _ => HandlerOutcome.success)
                    else none)
          [{ step_id := "D", step_type := "td", run_on_failure := true },
           { step_id := "E", step_type := "te" }] []).2.1).map
      (fun r => r.status) = some .completed :=
  tolerated_wave_failure_execution_completes _ []
    { step_id := "D", step_type := "td", run_on_failure := true }
    { step_id := "E", step_type := "te" }
    (fun _ => HandlerOutcome.failure "boom") (fun _ => HandlerOutcome.success)
    (by decide) rfl rfl rfl rfl (by simp) (by simp)
    (fun i => ⟨"boom", rfl⟩) (fun i => rfl)

end RelayPoint
